import Mathlib

/-!
Verification development for the syndactyl peer-to-peer file
synchronization daemon.  Rust strings and byte vectors are embedded as
`List Nat` (their byte sequences); `u64`/`usize` counters are embedded
as `Nat` (file sizes and offsets never overflow 64 bits for the inputs
the program accepts, and no arithmetic in the modelled code wraps).
`HashMap` is embedded as an association list with replace-on-insert and
remove-all semantics, which coincides with `HashMap` behaviour on every
reachable (duplicate-free) state.  Filesystem access is embedded as an
explicit oracle (`FsModel`), and the effect of a completed transfer's
disk write is embedded by returning the written path together with the
written bytes.
-/

/-- Byte strings: the embedding of Rust `String`, `&str`, `Vec<u8>` and `&[u8]`.
Rust strings are compared and MAC'd through their UTF-8 bytes, so a single
byte-sequence representation is faithful for everything the claims touch. -/
abbrev RStr := List Nat

/-- ASCII literal helper: the byte sequence of an ASCII Lean string literal
(for ASCII text, code points and UTF-8 bytes coincide). -/
def ascii (s : String) : RStr := s.data.map Char.toNat

/-- Decimal rendering of a natural number, as the byte sequence of its
decimal digits: the embedding of Rust `u64::to_string`. -/
def natDecimal (n : Nat) : RStr := ascii (Nat.repr n)

/-- Association-list lookup: the embedding of `HashMap::get`. -/
def alookup {κ α : Type} [DecidableEq κ] (k : κ) : List (κ × α) → Option α
  | [] => none
  | (k', v) :: rest => if k = k' then some v else alookup k rest

/-- Association-list insert with replace-on-collision: the embedding of
`HashMap::insert`. -/
def ainsert {κ α : Type} [DecidableEq κ] (k : κ) (v : α) : List (κ × α) → List (κ × α)
  | [] => [(k, v)]
  | (k', v') :: rest => if k = k' then (k, v) :: rest else (k', v') :: ainsert k v rest

/-- Association-list removal of a key: the embedding of `HashMap::remove`. -/
def aerase {κ α : Type} [DecidableEq κ] (k : κ) (m : List (κ × α)) : List (κ × α) :=
  m.filter (fun p => p.1 ≠ k)

/-- Insert into a sorted list of naturals (helper for `sortNat`). -/
def insertSorted (x : Nat) : List Nat → List Nat
  | [] => [x]
  | y :: ys => if x ≤ y then x :: y :: ys else y :: insertSorted x ys

/-- Insertion sort on naturals: the embedding of `Vec::<u64>::sort`. -/
def sortNat (l : List Nat) : List Nat := l.foldr insertSorted []

/-- Truncation to 32 bits. -/
def w32 (x : Nat) : Nat := x % 4294967296

/-- 32-bit right rotation. -/
def rotr32 (x n : Nat) : Nat := w32 ((x >>> n) ||| (x <<< (32 - n)))

/-- SHA-256 round constants (FIPS 180-4). -/
def sha256K : List Nat :=
  [1116352408, 1899447441, 3049323471, 3921009573, 961987163, 1508970993,
   2453635748, 2870763221, 3624381080, 310598401, 607225278, 1426881987,
   1925078388, 2162078206, 2614888103, 3248222580, 3835390401, 4022224774,
   264347078, 604807628, 770255983, 1249150122, 1555081692, 1996064986,
   2554220882, 2821834349, 2952996808, 3210313671, 3336571891, 3584528711,
   113926993, 338241895, 666307205, 773529912, 1294757372, 1396182291,
   1695183700, 1986661051, 2177026350, 2456956037, 2730485921, 2820302411,
   3259730800, 3345764771, 3516065817, 3600352804, 4094571909, 275423344,
   430227734, 506948616, 659060556, 883997877, 958139571, 1322822218,
   1537002063, 1747873779, 1955562222, 2024104815, 2227730452, 2361852424,
   2428436474, 2756734187, 3204031479, 3329325298]

/-- SHA-256 initial hash value (FIPS 180-4). -/
def sha256InitH : List Nat :=
  [1779033703, 3144134277, 1013904242, 2773480762,
   1359893119, 2600822924, 528734635, 1541459225]

/-- SHA-256 message-schedule sigma-0. -/
def sSig0 (x : Nat) : Nat := (rotr32 x 7) ^^^ (rotr32 x 18) ^^^ (x >>> 3)

/-- SHA-256 message-schedule sigma-1. -/
def sSig1 (x : Nat) : Nat := (rotr32 x 17) ^^^ (rotr32 x 19) ^^^ (x >>> 10)

/-- SHA-256 compression Sigma-0. -/
def bSig0 (x : Nat) : Nat := (rotr32 x 2) ^^^ (rotr32 x 13) ^^^ (rotr32 x 22)

/-- SHA-256 compression Sigma-1. -/
def bSig1 (x : Nat) : Nat := (rotr32 x 6) ^^^ (rotr32 x 11) ^^^ (rotr32 x 25)

/-- SHA-256 choose function (the complement of a 32-bit word is its xor
with the all-ones mask). -/
def sha256Ch (x y z : Nat) : Nat := (x &&& y) ^^^ ((x ^^^ 4294967295) &&& z)

/-- SHA-256 majority function. -/
def sha256Maj (x y z : Nat) : Nat := (x &&& y) ^^^ (x &&& z) ^^^ (y &&& z)

/-- Big-endian 32-bit words from a byte list (groups of four). -/
def bytesToWords : List Nat → List Nat
  | b0 :: b1 :: b2 :: b3 :: rest =>
      (b0 * 16777216 + b1 * 65536 + b2 * 256 + b3) :: bytesToWords rest
  | _ => []

/-- Big-endian bytes of a 32-bit word. -/
def wordBytes (w : Nat) : List Nat := [w / 16777216 % 256, w / 65536 % 256, w / 256 % 256, w % 256]

/-- Big-endian bytes of all words. -/
def wordsToBytes (ws : List Nat) : List Nat := (ws.map wordBytes).flatten

/-- Big-endian 64-bit byte encoding of a length in bits. -/
def be64 (n : Nat) : List Nat :=
  [n >>> 56 % 256, n >>> 48 % 256, n >>> 40 % 256, n >>> 32 % 256,
   n >>> 24 % 256, n >>> 16 % 256, n >>> 8 % 256, n % 256]

/-- SHA-256 padding: append 0x80, zero bytes to 56 mod 64, then the
64-bit big-endian bit length. -/
def sha256Pad (msg : List Nat) : List Nat :=
  msg ++ 0x80 :: List.replicate ((119 - msg.length % 64) % 64) 0 ++ be64 (8 * msg.length)

/-- Extend the 16 message words to the 64-entry SHA-256 schedule. -/
def sha256Schedule (ws : List Nat) : List Nat :=
  (List.range 48).foldl
    (fun acc _ =>
      let n := acc.length
      acc ++ [w32 (acc.getD (n - 16) 0 + sSig0 (acc.getD (n - 15) 0)
                    + acc.getD (n - 7) 0 + sSig1 (acc.getD (n - 2) 0))])
    ws

/-- One SHA-256 round on the 8-word working state. -/
def sha256Round (st : List Nat) (kw : Nat × Nat) : List Nat :=
  match st with
  | [a, b, c, d, e, f, g, h] =>
      let t1 := w32 (h + bSig1 e + sha256Ch e f g + kw.1 + kw.2)
      let t2 := w32 (bSig0 a + sha256Maj a b c)
      [w32 (t1 + t2), a, b, c, w32 (d + t1), e, f, g]
  | other => other

/-- SHA-256 compression of one 64-byte block into the running hash. -/
def sha256Compress (hs : List Nat) (block : List Nat) : List Nat :=
  let ws := sha256Schedule (bytesToWords block)
  let stF := (sha256K.zip ws).foldl sha256Round hs
  (hs.zip stF).map (fun p => w32 (p.1 + p.2))

/-- Split a byte list into 64-byte blocks (structural on a fuel bound of
one block per remaining element, so the kernel can evaluate it). -/
def chunksOf64Go : Nat → List Nat → List (List Nat)
  | 0, _ => []
  | _ + 1, [] => []
  | fuel + 1, b :: rest => ((b :: rest).take 64) :: chunksOf64Go fuel ((b :: rest).drop 64)

/-- Split a byte list into 64-byte blocks. -/
def chunksOf64 (l : List Nat) : List (List Nat) := chunksOf64Go l.length l

/-- SHA-256 of a byte string, as 32 bytes: the embedding of the `sha2`
crate's `Sha256` used by the program. -/
def sha256 (msg : List Nat) : List Nat :=
  wordsToBytes ((chunksOf64 (sha256Pad msg)).foldl sha256Compress sha256InitH)

/-- A lowercase hexadecimal digit byte. -/
def hexDigit (n : Nat) : Nat := if n < 10 then 48 + n else 87 + n

/-- Lowercase hexadecimal byte string of a byte list: the embedding of
Rust's `format!("{:x}", …)` over a digest output. -/
def hexLower (bytes : List Nat) : RStr :=
  bytes.foldr (fun b acc => hexDigit (b / 16) :: hexDigit (b % 16) :: acc) []

/-- SHA-256 of a byte string rendered as 64 lowercase hex digit bytes. -/
def sha256hex (msg : List Nat) : RStr := hexLower (sha256 msg)

/-- HMAC-SHA-256 (RFC 2104) with 64-byte block size: the embedding of the
`hmac` crate's `Hmac<Sha256>` used by the program. -/
def hmacSha256 (key msg : List Nat) : List Nat :=
  let k0 := if key.length > 64 then sha256 key else key
  let k1 := k0 ++ List.replicate (64 - k0.length) 0
  sha256 ((k1.map (fun b => b ^^^ 0x5c)) ++ sha256 ((k1.map (fun b => b ^^^ 0x36)) ++ msg))

/-- The gossip payload record, from `src/core/models.rs` (`FileEventMessage`).
The `hmac` field is the authentication tag consumed by `src/core/auth.rs`;
its declaration is absent from the `models.rs` snapshot under `src/` but is
required by `auth.rs` and `manager.rs`, and is described in spec section 3
(optional authentication tag). -/
structure FileEventMessage where
  observer : RStr
  event_type : RStr
  path : RStr
  details : Option RStr
  hash : Option RStr
  size : Option Nat
  modified_time : Option Nat
  hmac : Option RStr
deriving DecidableEq

/-- `FileTransferRequest` from `src/core/models.rs`. -/
structure FileTransferRequest where
  observer : RStr
  path : RStr
  hash : RStr
deriving DecidableEq

/-- Modelled from the spec: `FileChunkRequest` is used by `main.rs` and
`manager.rs` but its declaration is absent from the `models.rs` snapshot
under `src/`.  Spec section 3: a File Chunk Request is the transfer request
plus a byte offset. -/
structure FileChunkRequest where
  observer : RStr
  path : RStr
  offset : Nat
  hash : RStr
deriving DecidableEq

/-- `FileTransferResponse` from `src/core/models.rs`. -/
structure FileTransferResponse where
  observer : RStr
  path : RStr
  data : RStr
  offset : Nat
  total_size : Nat
  hash : RStr
  is_last_chunk : Bool
deriving DecidableEq

/-- `ObserverConfig` from `src/core/config.rs`. -/
structure ObserverConfig where
  name : RStr
  path : RStr
  shared_secret : Option RStr
deriving DecidableEq

/-- The double-pipe separator used by the HMAC canonical layout. -/
def sepBytes : RStr := ascii "||"

/-- The byte sequence MAC'd by `compute_hmac` (`src/core/auth.rs` lines
14-33): the successive `mac.update` calls concatenate
observer, `"||"`, event type, `"||"`, path, `"||"`, the hash when present,
`"||"`, the decimal size when present, `"||"`, and the decimal
modification time when present. -/
def computeHmacInput (msg : FileEventMessage) : RStr :=
  msg.observer ++ sepBytes ++ msg.event_type ++ sepBytes ++ msg.path ++ sepBytes
    ++ (match msg.hash with | some h => h | none => []) ++ sepBytes
    ++ (match msg.size with | some n => natDecimal n | none => []) ++ sepBytes
    ++ (match msg.modified_time with | some n => natDecimal n | none => [])

/-- `compute_hmac` from `src/core/auth.rs`: hex-encoded HMAC-SHA-256 of the
canonical byte layout under the secret. -/
def compute_hmac (msg : FileEventMessage) (secret : RStr) : RStr :=
  hexLower (hmacSha256 secret (computeHmacInput msg))

/-- `constant_time_compare` from `src/core/auth.rs`: returns false at once
when the byte lengths differ; otherwise ORs together the XORs of all byte
pairs and compares the accumulator with zero. -/
def constant_time_compare (a b : RStr) : Bool :=
  if a.length ≠ b.length then false
  else ((a.zip b).foldl (fun r p => r ||| (p.1 ^^^ p.2)) 0) == 0

/-- Instrumented `constant_time_compare`: the same computation paired with
its cost, counted as the number of byte-comparison loop iterations
executed.  The early return on a length difference executes zero
iterations. -/
def constantTimeCompareInstr (a b : RStr) : Bool × Nat :=
  if a.length ≠ b.length then (false, 0)
  else
    let r := (a.zip b).foldl (fun (acc : Nat × Nat) p => (acc.1 ||| (p.1 ^^^ p.2), acc.2 + 1)) (0, 0)
    (r.1 == 0, r.2)

/-- `verify_hmac` from `src/core/auth.rs`: false when no tag is carried,
otherwise the constant-time comparison of the carried tag against the
recomputed tag. -/
def verify_hmac (msg : FileEventMessage) (secret : RStr) : Bool :=
  match msg.hmac with
  | none => false
  | some provided => constant_time_compare provided (compute_hmac msg secret)

/-- The canonical tag input as the spec words it (spec sections 3 and 4.B):
the concatenation
observer || "||" || kind || "||" || path || "||" || hash || "||" || size || "||" || mtime
with empty segments where optional fields are absent.  Stated from the
spec's words, to be compared against `computeHmacInput` from the source. -/
def specCanonicalBytes (msg : FileEventMessage) : RStr :=
  msg.observer ++ sepBytes ++ msg.event_type ++ sepBytes ++ msg.path ++ sepBytes
    ++ (msg.hash.getD []) ++ sepBytes
    ++ ((msg.size.map natDecimal).getD []) ++ sepBytes
    ++ ((msg.modified_time.map natDecimal).getD [])

/-- `CHUNK_SIZE` from `src/network/transfer.rs`: 1 MiB. -/
def CHUNK_SIZE : Nat := 1024 * 1024

/-- `MAX_FILE_SIZE` from `src/network/transfer.rs`: 100 MiB. -/
def MAX_FILE_SIZE : Nat := 100 * 1024 * 1024

/-- `TransferState` from `src/network/transfer.rs`: per-transfer assembly
state; `chunks` is the offset-to-bytes map. -/
structure TransferState where
  observer : RStr
  path : RStr
  total_size : Nat
  expected_hash : RStr
  chunks : List (Nat × RStr)
  base_path : RStr
deriving DecidableEq

/-- The transfer map of `FileTransferTracker`, keyed by (observer, path). -/
abbrev Tracker := List ((RStr × RStr) × TransferState)

/-- The empty tracker (`FileTransferTracker::new`). -/
def emptyTracker : Tracker := []

/-- `to_absolute_path` from `src/core/file_handler.rs`: `base.join(relative)`,
embedded as path concatenation with a separator. -/
def toAbsolutePath (relative base : RStr) : RStr := base ++ ascii "/" ++ relative

/-- `FileTransferTracker::start_transfer`: installs a fresh state for the
key, replacing any prior state. -/
def startTransfer (t : Tracker) (observer path : RStr) (total_size : Nat)
    (hash : RStr) (base_path : RStr) : Tracker :=
  ainsert (observer, path)
    { observer := observer, path := path, total_size := total_size,
      expected_hash := hash, chunks := [], base_path := base_path } t

/-- The bytes assembled by `complete_transfer`: chunk offsets sorted
ascending, then the stored bytes concatenated in that order (offsets
missing from the map contribute nothing). -/
def assembledContent (chunks : List (Nat × RStr)) : RStr :=
  ((sortNat (chunks.map Prod.fst)).map (fun o => (alookup o chunks).getD [])).flatten

/-- `FileTransferTracker::complete_transfer`: removes the state, assembles
the chunks in ascending offset order, fails on a size mismatch, then on a
hash mismatch; otherwise the assembled bytes are written to
`base_path/path`.  The disk write is embedded by returning the written
path together with the written bytes (`write_file_content` I/O faults are
outside the model), so an `Except.error` outcome writes nothing. -/
def completeTransfer (t : Tracker) (key : RStr × RStr) :
    Tracker × Except RStr (Option (RStr × RStr)) :=
  match alookup key t with
  | none => (t, .error (ascii "Transfer not found"))
  | some s =>
      let t' := aerase key t
      let content := assembledContent s.chunks
      if content.length ≠ s.total_size then (t', .error (ascii "File size mismatch"))
      else if sha256hex content ≠ s.expected_hash then (t', .error (ascii "File hash mismatch"))
      else (t', .ok (some (toAbsolutePath s.path s.base_path, content)))

/-- `FileTransferTracker::add_chunk`: errors when no transfer is in
progress for the key, stores the chunk (an offset collision overwrites),
and triggers completion when the chunk is flagged last. -/
def addChunk (t : Tracker) (observer path : RStr) (offset : Nat) (data : RStr)
    (is_last_chunk : Bool) : Tracker × Except RStr (Option (RStr × RStr)) :=
  match alookup (observer, path) t with
  | none => (t, .error (ascii "No transfer in progress for " ++ observer ++ ascii "/" ++ path))
  | some s =>
      let t' := ainsert (observer, path) { s with chunks := ainsert offset data s.chunks } t
      if is_last_chunk then completeTransfer t' (observer, path)
      else (t', .ok none)

/-- `FileTransferTracker::cancel_transfer`. -/
def cancelTransfer (t : Tracker) (observer path : RStr) : Tracker :=
  aerase (observer, path) t

/-- The chunk loop of `generate_file_chunks` (`src/network/transfer.rs`
lines 169-190) over the file's byte content `B`: while the offset is
below the file size, read up to `CHUNK_SIZE` bytes at the offset
(`read_file_chunk` embedded as take-after-drop on the content), flag the
chunk last when offset plus bytes read reaches the file size, and advance
the offset by the bytes read. -/
def genChunksAux (observer path hash : RStr) (B : RStr) (offset : Nat) :
    List FileTransferResponse :=
  if h : offset < B.length then
    { observer := observer, path := path, data := (B.drop offset).take CHUNK_SIZE,
      offset := offset, total_size := B.length, hash := hash,
      is_last_chunk := decide (offset + ((B.drop offset).take CHUNK_SIZE).length ≥ B.length) }
      :: genChunksAux observer path hash B (offset + ((B.drop offset).take CHUNK_SIZE).length)
  else []
termination_by B.length - offset
decreasing_by
  simp only [List.length_take, List.length_drop, CHUNK_SIZE]
  omega

/-- `generate_file_chunks` from `src/network/transfer.rs`: rejects files
larger than `MAX_FILE_SIZE`, otherwise produces the full chunk sequence.
The file at the given path is embedded by its byte content `B`; the
metadata size is `B.length`. -/
def generateFileChunks (observer path : RStr) (B : RStr) (hash : RStr) :
    Except RStr (List FileTransferResponse) :=
  if B.length > MAX_FILE_SIZE then
    .error (ascii "File too large: " ++ natDecimal B.length
            ++ ascii " bytes (max: " ++ natDecimal MAX_FILE_SIZE ++ ascii ")")
  else .ok (genChunksAux observer path hash B 0)

/-- Feeding a chunk sequence into the tracker client-side: each response is
passed to `add_chunk` in order, and the outcome is the tracker together
with the result of the last `add_chunk` call. -/
def feedChunks (t : Tracker) (cs : List FileTransferResponse) :
    Tracker × Except RStr (Option (RStr × RStr)) :=
  cs.foldl (fun acc c => addChunk acc.1 c.observer c.path c.offset c.data c.is_last_chunk)
    (t, .ok none)

/-- Filesystem oracle: the interface of `src/core/file_handler.rs` as the
orchestrator consumes it.  `exists?` and `isFile` are `Path::exists` /
`Path::is_file`; `calcHash` is `calculate_file_hash`; `sizeOf` is the
metadata length with the `unwrap_or(0)` fallback applied; `readChunk` is
`read_file_chunk` (path, offset, size). -/
structure FsModel where
  exists? : RStr → Bool
  isFile : RStr → Bool
  calcHash : RStr → Except RStr RStr
  sizeOf : RStr → Nat
  readChunk : RStr → Nat → Nat → Except RStr RStr

/-- A visible network effect of the orchestrator: a gossip publish, an
outgoing request, or a response sent on a response channel. -/
inductive NetAction where
  | publishGossip (data : RStr)
  | requestFile (peer : Nat) (req : FileTransferRequest)
  | requestFileChunk (peer : Nat) (req : FileChunkRequest)
  | sendResponse (resp : FileTransferResponse)
deriving DecidableEq

/-- The observer table of `NetworkManager`: observer name to configuration. -/
abbrev ObserverConfigs := List (RStr × ObserverConfig)

/-- Whether an event type is `"Create"` or `"Modify"` (the
`matches!(event_type.as_str(), "Create" | "Modify")` test). -/
def isCreateOrModify (event_type : RStr) : Bool :=
  event_type == ascii "Create" || event_type == ascii "Modify"

/-- `NetworkManager::process_file_event` (`src/network/manager.rs` lines
158-217): decide whether to fetch — skip when the observer is unknown;
when the file exists, fetch only if a hash is announced and the local
hash is different (or cannot be computed); when the file is missing,
fetch.  Fetching emits one `FileTransferRequest` to the announcing peer
and, only when a size is announced, starts tracking the transfer. -/
def processFileEvent (cfgs : ObserverConfigs) (fs : FsModel) (t : Tracker)
    (peer : Nat) (ev : FileEventMessage) : Tracker × List NetAction :=
  match alookup ev.observer cfgs with
  | none => (t, [])
  | some cfg =>
      let absolute_path := toAbsolutePath ev.path cfg.path
      let should_request :=
        if fs.exists? absolute_path then
          match ev.hash with
          | some remote_hash =>
              match fs.calcHash absolute_path with
              | .ok local_hash => local_hash ≠ remote_hash
              | .error _ => true
          | none => false
        else true
      if should_request then
        match ev.hash with
        | some hash =>
            let t' :=
              match ev.size with
              | some size => startTransfer t ev.observer ev.path size hash cfg.path
              | none => t
            (t', [.requestFile peer { observer := ev.observer, path := ev.path, hash := hash }])
        | none => (t, [])
      else (t, [])

/-- `NetworkManager::handle_gossipsub_message` (`src/network/manager.rs`
lines 116-155), the bridged P2P-event receive path, applied to an
announcement that decoded successfully (a decode failure is logged and
dropped and is outside the claims): drop when the observer is unknown;
when the observer carries a shared secret, drop unless the tag verifies;
then hand Create/Modify events to `process_file_event`. -/
def handleGossipsubMessage (cfgs : ObserverConfigs) (fs : FsModel) (t : Tracker)
    (source : Nat) (ev : FileEventMessage) : Tracker × List NetAction :=
  match alookup ev.observer cfgs with
  | none => (t, [])
  | some cfg =>
      let verified :=
        match cfg.shared_secret with
        | some secret => verify_hmac ev secret
        | none => true
      if verified then
        if isCreateOrModify ev.event_type then processFileEvent cfgs fs t source ev
        else (t, [])
      else (t, [])

/-- The gossip branch of `NetworkManager::handle_swarm_event`
(`src/network/manager.rs` lines 408-423), the direct swarm-event receive
path, applied to an announcement that decoded successfully: Create/Modify
events go straight to `process_file_event`; no tag verification is
performed on this path. -/
def handleSwarmGossipMessage (cfgs : ObserverConfigs) (fs : FsModel) (t : Tracker)
    (propagation_source : Nat) (ev : FileEventMessage) : Tracker × List NetAction :=
  if isCreateOrModify ev.event_type then
    processFileEvent cfgs fs t propagation_source ev
  else (t, [])

/-- `NetworkManager::handle_observer_message` (`src/network/manager.rs`
lines 85-89): the watcher announcement bytes are published on the gossip
topic unchanged. -/
def handleObserverMessage (msg : RStr) : List NetAction :=
  [.publishGossip msg]

/-- Modelled from the spec: `generate_first_chunk` is called by `main.rs`
and `manager.rs` but its definition is absent from the `transfer.rs`
snapshot under `src/`.  Spec section 4.E: the first chunk has offset 0
and reads `min(CHUNK_SIZE, total_size)` bytes with
`is_last = (bytes read == total_size)`; files larger than 100 MiB are
rejected at the sender with no response (the bound `generate_file_chunks`
also enforces). -/
def generateFirstChunk (fs : FsModel) (observer relative_path absolute_path hash : RStr) :
    Except RStr FileTransferResponse :=
  let total_size := fs.sizeOf absolute_path
  if total_size > MAX_FILE_SIZE then
    .error (ascii "File too large: " ++ natDecimal total_size
            ++ ascii " bytes (max: " ++ natDecimal MAX_FILE_SIZE ++ ascii ")")
  else
    match fs.readChunk absolute_path 0 (min CHUNK_SIZE total_size) with
    | .ok data =>
        .ok { observer := observer, path := relative_path, data := data, offset := 0,
              total_size := total_size, hash := hash,
              is_last_chunk := decide (data.length = total_size) }
    | .error e => .error e

/-- `NetworkManager::handle_file_transfer_request` (`src/network/manager.rs`
lines 220-280): for a known observer and an existing regular file, send
the first chunk as the single response; on a first-chunk generation error
(including the oversize rejection) log and send nothing. -/
def handleFileTransferRequest (cfgs : ObserverConfigs) (fs : FsModel)
    (peer : Nat) (request : FileTransferRequest) : List NetAction :=
  match alookup request.observer cfgs with
  | none => []
  | some cfg =>
      let absolute_path := toAbsolutePath request.path cfg.path
      if fs.exists? absolute_path && fs.isFile absolute_path then
        match generateFirstChunk fs request.observer request.path absolute_path request.hash with
        | .ok first_chunk => [.sendResponse first_chunk]
        | .error _ => []
      else []

/-- `NetworkManager::handle_file_chunk_request` (`src/network/manager.rs`
lines 340-400): for a known observer and an existing regular file, read
up to `CHUNK_SIZE` bytes at the requested offset and respond, with
`is_last_chunk` when offset plus bytes read reaches the metadata size;
no file-size bound is checked on this path. -/
def handleFileChunkRequest (cfgs : ObserverConfigs) (fs : FsModel)
    (peer : Nat) (request : FileChunkRequest) : List NetAction :=
  match alookup request.observer cfgs with
  | none => []
  | some cfg =>
      let absolute_path := toAbsolutePath request.path cfg.path
      if fs.exists? absolute_path && fs.isFile absolute_path then
        match fs.readChunk absolute_path request.offset CHUNK_SIZE with
        | .ok data =>
            let total_size := fs.sizeOf absolute_path
            [.sendResponse { observer := request.observer, path := request.path,
                             data := data, offset := request.offset,
                             total_size := total_size, hash := request.hash,
                             is_last_chunk := decide (request.offset + data.length ≥ total_size) }]
        | .error _ => []
      else []

/-- `NetworkManager::handle_file_transfer_response` (`src/network/manager.rs`
lines 283-337): pass the chunk to `add_chunk`; on completion or on an
error only log; otherwise, when the chunk was not flagged last, request
the next chunk from the same peer at offset plus data length. -/
def handleFileTransferResponse (t : Tracker) (peer : Nat)
    (response : FileTransferResponse) : Tracker × List NetAction :=
  let r := addChunk t response.observer response.path response.offset
             response.data response.is_last_chunk
  match r.2 with
  | .ok (some _) => (r.1, [])
  | .ok none =>
      if !response.is_last_chunk then
        (r.1, [.requestFileChunk peer
                { observer := response.observer, path := response.path,
                  offset := response.offset + response.data.length,
                  hash := response.hash }])
      else (r.1, [])
  | .error _ => (r.1, [])

/-- Concrete observer name used by the concrete scenarios. -/
def obsName : RStr := ascii "obs"

/-- Concrete observer configuration carrying a shared secret. -/
def cfgWithSecret : ObserverConfig :=
  { name := obsName, path := ascii "/base", shared_secret := some (ascii "s") }

/-- Concrete observer table holding the secret-bearing observer. -/
def cfgsSecret : ObserverConfigs := [(obsName, cfgWithSecret)]

/-- Filesystem oracle on which no file exists. -/
def fsAbsent : FsModel :=
  { exists? := fun _ => false, isFile := fun _ => false,
    calcHash := fun _ => .error (ascii "no file"), sizeOf := fun _ => 0,
    readChunk := fun _ _ _ => .error (ascii "no file") }

/-- Concrete announcement carrying no tag for the secret-bearing observer. -/
def msgNoTag : FileEventMessage :=
  { observer := obsName, event_type := ascii "Create", path := ascii "a.txt",
    details := none, hash := some (ascii "ab"), size := some 3,
    modified_time := some 1, hmac := none }

/-- Filesystem oracle on which the announced file exists with hash `"ab"`. -/
def fsUpToDate : FsModel :=
  { exists? := fun _ => true, isFile := fun _ => true,
    calcHash := fun _ => .ok (ascii "ab"), sizeOf := fun _ => 3,
    readChunk := fun _ _ _ => .ok (ascii "xyz") }

/-- Concrete announcement carrying a hash but no size. -/
def msgNoSize : FileEventMessage := { msgNoTag with size := none }

/-- Concrete in-progress transfer state for the C7 witness. -/
def trackerC7 : Tracker :=
  startTransfer emptyTracker obsName (ascii "a.txt") 5 (ascii "h") (ascii "/base")

/-- Concrete non-last chunk response for the C7 witness. -/
def respC7 : FileTransferResponse :=
  { observer := obsName, path := ascii "a.txt", data := [1, 2], offset := 0,
    total_size := 5, hash := ascii "h", is_last_chunk := false }

/-- Filesystem oracle holding a file one byte past `MAX_FILE_SIZE`; a
chunk read at offset 0 returns three bytes. -/
def fsOversize : FsModel :=
  { exists? := fun _ => true, isFile := fun _ => true,
    calcHash := fun _ => .error (ascii "e"),
    sizeOf := fun _ => MAX_FILE_SIZE + 1,
    readChunk := fun _ _ _ => .ok [7, 7, 7] }

/-- Concrete chunk request against the oversize file. -/
def chunkReqBig : FileChunkRequest :=
  { observer := obsName, path := ascii "big.bin", offset := 0, hash := ascii "h" }

/-- Concrete initial transfer request against the oversize file. -/
def transferReqBig : FileTransferRequest :=
  { observer := obsName, path := ascii "big.bin", hash := ascii "h" }

set_option maxRecDepth 100000 in
/-- Known-answer check for the SHA-256 embedding: the FIPS 180-4 sample
digest of "abc". -/
theorem sha256hex_abc_vector :
    sha256hex (ascii "abc")
      = ascii "ba7816bf8f01cfea414140de5dae2223b00361a396177a9cb410ff61f20015ad" := by
  decide

set_option maxRecDepth 100000 in
/-- Known-answer check for the HMAC-SHA-256 embedding: RFC 4231 test
case 2. -/
theorem hmacSha256_rfc4231_vector :
    hexLower (hmacSha256 (ascii "Jefe") (ascii "what do ya want for nothing?"))
      = ascii "5bdcc146bf60754e6a042426089575c75a003f089d2739839dec58b964ec3843" := by
  decide

/-- A bitwise-or of naturals is zero exactly when both sides are zero. -/
theorem lor_zero_iff (m n : Nat) : m ||| n = 0 ↔ m = 0 ∧ n = 0 := by
  constructor
  · intro h
    have hb : ∀ i, m.testBit i = false ∧ n.testBit i = false := by
      intro i
      have h2 : (m ||| n).testBit i = false := by rw [h]; simp
      rw [Nat.testBit_lor] at h2
      exact ⟨(Bool.or_eq_false_iff.mp h2).1, (Bool.or_eq_false_iff.mp h2).2⟩
    refine ⟨Nat.eq_of_testBit_eq fun i => ?_, Nat.eq_of_testBit_eq fun i => ?_⟩
    · simp [(hb i).1]
    · simp [(hb i).2]
  · rintro ⟨rfl, rfl⟩
    rfl

/-- The or-accumulating xor fold of `constant_time_compare` is zero exactly
when the accumulator started at zero and every paired byte agrees. -/
theorem foldl_lor_xor_eq_zero (ps : List (Nat × Nat)) (acc : Nat) :
    (ps.foldl (fun r p => r ||| (p.1 ^^^ p.2)) acc = 0) ↔
      (acc = 0 ∧ ∀ p ∈ ps, p.1 = p.2) := by
  induction ps generalizing acc with
  | nil => simp
  | cons q qs ih =>
      simp only [List.foldl_cons, ih, lor_zero_iff, Nat.xor_eq_zero, List.mem_cons]
      constructor
      · rintro ⟨⟨h1, h2⟩, h3⟩
        exact ⟨h1, fun p hp => by rcases hp with rfl | hp; exact h2; exact h3 p hp⟩
      · rintro ⟨h1, h2⟩
        exact ⟨⟨h1, h2 q (Or.inl rfl)⟩, fun p hp => h2 p (Or.inr hp)⟩

/-- Lists of equal length whose zipped pairs all agree are equal. -/
theorem eq_of_zip_agree : ∀ (a b : List Nat), a.length = b.length →
    (∀ p ∈ a.zip b, p.1 = p.2) → a = b
  | [], [], _, _ => rfl
  | [], _ :: _, h, _ => by simp at h
  | _ :: _, [], h, _ => by simp at h
  | x :: xs, y :: ys, h, hp => by
      have hx : x = y := hp (x, y) (by simp)
      have hr : xs = ys :=
        eq_of_zip_agree xs ys (by simpa using h) (fun p hp2 => hp p (by simp [hp2]))
      rw [hx, hr]

/-- Every pair of a list zipped with itself agrees. -/
theorem zip_self_agree (a : List Nat) : ∀ p ∈ a.zip a, p.1 = p.2 := by
  induction a with
  | nil => simp
  | cons x xs ih =>
      intro p hp
      simp only [List.zip_cons_cons, List.mem_cons] at hp
      rcases hp with rfl | hp
      · rfl
      · exact ih p hp

/-- `constant_time_compare` decides byte-string equality. -/
theorem constant_time_compare_eq_decide (a b : RStr) :
    constant_time_compare a b = decide (a = b) := by
  by_cases hlen : a.length = b.length
  · by_cases heq : a = b
    · subst heq
      have hz : (a.zip a).foldl (fun r p => r ||| (p.1 ^^^ p.2)) 0 = 0 :=
        (foldl_lor_xor_eq_zero _ _).mpr ⟨rfl, zip_self_agree a⟩
      simp [constant_time_compare, hz]
    · have hz : ¬ ((a.zip b).foldl (fun r p => r ||| (p.1 ^^^ p.2)) 0 = 0) := by
        rw [foldl_lor_xor_eq_zero]
        rintro ⟨-, hall⟩
        exact heq (eq_of_zip_agree a b hlen hall)
      simp [constant_time_compare, hlen, beq_iff_eq, hz, heq]
  · have hne : a ≠ b := fun h => hlen (by rw [h])
    simp [constant_time_compare, hlen, hne]

/-- The counting fold of the instrumented comparison counts the pairs. -/
theorem foldl_count_pairs (ps : List (Nat × Nat)) (x n : Nat) :
    (ps.foldl (fun (acc : Nat × Nat) p => (acc.1 ||| (p.1 ^^^ p.2), acc.2 + 1)) (x, n)).2
      = n + ps.length := by
  induction ps generalizing x n with
  | nil => simp
  | cons q qs ih => simp [List.foldl_cons, ih]; omega

/-- Claim C8: for every announcement and secret, `compute_hmac` is the
lowercase-hex HMAC-SHA-256 of the spec's canonical byte string
observer || "||" || kind || "||" || path || "||" || hash || "||" || size || "||" || mtime
with empty segments where optional fields are absent; and `verify_hmac`
returns false when no tag is carried, and otherwise returns true exactly
when the carried tag equals the recomputed tag. -/
theorem claim_C8 (m : FileEventMessage) (k : RStr) :
    compute_hmac m k = hexLower (hmacSha256 k (specCanonicalBytes m))
    ∧ verify_hmac { m with hmac := none } k = false
    ∧ ∀ tag : RStr, verify_hmac { m with hmac := some tag } k
        = decide (tag = compute_hmac m k) := by
  refine ⟨?_, rfl, fun tag => ?_⟩
  · cases hh : m.hash <;> cases hs : m.size <;> cases hmt : m.modified_time <;>
      simp [compute_hmac, computeHmacInput, specCanonicalBytes, hh, hs, hmt]
  · show constant_time_compare tag (compute_hmac { m with hmac := some tag } k) = _
    rw [constant_time_compare_eq_decide]
    rfl

/-- Claim C9 counterexample: in the iteration-count cost model, the
comparison inside `verify_hmac` distinguishes length classes — comparing
a 2-byte tag with a 3-byte tag executes a different number of
byte-comparison iterations than comparing it with a 2-byte tag, because
`constant_time_compare` returns early when the lengths differ.  This
refutes the claim's "no length-class side channel (no early exit on a
length difference)". -/
theorem claim_C9_counterexample :
    (constantTimeCompareInstr (ascii "ab") (ascii "abc")).2
      ≠ (constantTimeCompareInstr (ascii "ab") (ascii "ab")).2 := by
  decide

/-- Claim C9 amended: for equal-length inputs the comparison of
`verify_hmac` runs a number of byte-comparison iterations equal to the
common length, independent of the position of the first mismatched byte;
on a length difference it exits early with zero iterations (so length
classes are observable, but mismatch positions are not). -/
theorem claim_C9_amended (a b : RStr) :
    (constantTimeCompareInstr a b).2 = if a.length = b.length then a.length else 0 := by
  by_cases h : a.length = b.length
  · have hne : ¬ (a.length ≠ b.length) := fun hc => hc h
    simp only [constantTimeCompareInstr, if_neg hne, if_pos h, foldl_count_pairs,
      List.length_zip, Nat.zero_add]
    omega
  · simp [constantTimeCompareInstr, h]

/-- Claim C2, code behaviour at the failing input: for every watcher
announcement (in particular one whose observer is configured with a
shared secret), the orchestrator publishes the watcher's serialized bytes
on the gossip topic unchanged — `compute_hmac` is never invoked on the
outbound path and no tag is attached, contradicting the claim that the
tag is computed and attached before publishing. -/
theorem claim_C2_code_behavior (msg : RStr) :
    handleObserverMessage msg = [.publishGossip msg] := rfl

/-- Claim C1 counterexample: an announcement whose observer is configured
with a shared secret and whose tag verification fails (here: no tag at
all) is not dropped on the direct swarm-event receive path — that path
performs no verification, sends a `FileTransferRequest` to the announcing
peer and creates transfer state. -/
theorem claim_C1_counterexample :
    verify_hmac msgNoTag (ascii "s") = false
    ∧ (handleSwarmGossipMessage cfgsSecret fsAbsent emptyTracker 7 msgNoTag).2
        = [.requestFile 7 { observer := obsName, path := ascii "a.txt", hash := ascii "ab" }]
    ∧ alookup (obsName, ascii "a.txt")
        (handleSwarmGossipMessage cfgsSecret fsAbsent emptyTracker 7 msgNoTag).1 ≠ none := by
  refine ⟨rfl, by decide, by decide⟩

/-- Claim C1 amended: on the bridged P2P-event receive path
(`handle_gossipsub_message`), an announcement whose observer is
configured with a shared secret and whose tag verification fails is
dropped — no action is emitted and the transfer tracker is unchanged.
(On the direct swarm-event path no verification is performed.) -/
theorem claim_C1_amended (cfgs : ObserverConfigs) (fs : FsModel) (t : Tracker)
    (peer : Nat) (ev : FileEventMessage) (cfg : ObserverConfig) (secret : RStr)
    (h1 : alookup ev.observer cfgs = some cfg)
    (h2 : cfg.shared_secret = some secret)
    (h3 : verify_hmac ev secret = false) :
    handleGossipsubMessage cfgs fs t peer ev = (t, []) := by
  unfold handleGossipsubMessage
  simp [h1, h2, h3]

/-- Claim C1 witness: the amended theorem applied to the concrete untagged
announcement for the secret-bearing observer. -/
theorem claim_C1_witness :
    alookup msgNoTag.observer cfgsSecret = some cfgWithSecret
    ∧ cfgWithSecret.shared_secret = some (ascii "s")
    ∧ verify_hmac msgNoTag (ascii "s") = false
    ∧ handleGossipsubMessage cfgsSecret fsAbsent emptyTracker 7 msgNoTag = (emptyTracker, []) :=
  ⟨by decide, by decide, rfl,
   claim_C1_amended cfgsSecret fsAbsent emptyTracker 7 msgNoTag cfgWithSecret (ascii "s")
     (by decide) (by decide) rfl⟩

/-- Claim C6: a gossip-received Create or Modify announcement whose file
exists locally with a current SHA-256 hash equal to the announced hash is
a no-op — no `FileTransferRequest` is emitted and the transfer tracker is
unchanged, so re-delivering the announcement after a successful transfer
is safe. -/
theorem claim_C6 (cfgs : ObserverConfigs) (fs : FsModel) (t : Tracker) (peer : Nat)
    (ev : FileEventMessage) (cfg : ObserverConfig) (hsh : RStr)
    (h1 : alookup ev.observer cfgs = some cfg)
    (h2 : fs.exists? (toAbsolutePath ev.path cfg.path) = true)
    (h3 : fs.calcHash (toAbsolutePath ev.path cfg.path) = .ok hsh)
    (h4 : ev.hash = some hsh) :
    processFileEvent cfgs fs t peer ev = (t, []) := by
  unfold processFileEvent
  simp [h1, h2, h3, h4]

/-- Claim C6 witness: the theorem applied to the concrete announcement of
hash `"ab"` over an oracle whose local file already has hash `"ab"`. -/
theorem claim_C6_witness :
    alookup msgNoTag.observer cfgsSecret = some cfgWithSecret
    ∧ fsUpToDate.exists? (toAbsolutePath msgNoTag.path cfgWithSecret.path) = true
    ∧ fsUpToDate.calcHash (toAbsolutePath msgNoTag.path cfgWithSecret.path) = .ok (ascii "ab")
    ∧ msgNoTag.hash = some (ascii "ab")
    ∧ processFileEvent cfgsSecret fsUpToDate emptyTracker 7 msgNoTag = (emptyTracker, []) :=
  ⟨by decide, rfl, rfl, by decide,
   claim_C6 cfgsSecret fsUpToDate emptyTracker 7 msgNoTag cfgWithSecret (ascii "ab")
     (by decide) rfl rfl (by decide)⟩

/-- Claim C10: a Create or Modify announcement for a missing local file
that carries a hash but no size makes the orchestrator send a
`FileTransferRequest` to the announcing peer while creating no transfer
state (the tracker is returned unchanged), so every subsequent
`add_chunk` call for that (observer, path) key fails with the
no-transfer-in-progress error — and an erroring `add_chunk` writes no
file. -/
theorem claim_C10 (cfgs : ObserverConfigs) (fs : FsModel) (t : Tracker) (peer : Nat)
    (ev : FileEventMessage) (cfg : ObserverConfig) (hsh : RStr)
    (h1 : alookup ev.observer cfgs = some cfg)
    (h2 : fs.exists? (toAbsolutePath ev.path cfg.path) = false)
    (h3 : ev.hash = some hsh)
    (h4 : ev.size = none)
    (h5 : alookup (ev.observer, ev.path) t = none) :
    processFileEvent cfgs fs t peer ev
      = (t, [.requestFile peer { observer := ev.observer, path := ev.path, hash := hsh }])
    ∧ ∀ (off : Nat) (data : RStr) (last : Bool),
        (addChunk t ev.observer ev.path off data last).2
          = .error (ascii "No transfer in progress for " ++ ev.observer ++ ascii "/" ++ ev.path) := by
  constructor
  · unfold processFileEvent
    simp [h1, h2, h3, h4]
  · intro off data last
    unfold addChunk
    simp [h5]

/-- Claim C10 witness: the theorem applied to the concrete size-less
announcement over the oracle with no local files and an empty tracker. -/
theorem claim_C10_witness :
    alookup msgNoSize.observer cfgsSecret = some cfgWithSecret
    ∧ fsAbsent.exists? (toAbsolutePath msgNoSize.path cfgWithSecret.path) = false
    ∧ msgNoSize.hash = some (ascii "ab")
    ∧ msgNoSize.size = none
    ∧ alookup (msgNoSize.observer, msgNoSize.path) emptyTracker = none
    ∧ processFileEvent cfgsSecret fsAbsent emptyTracker 7 msgNoSize
        = (emptyTracker,
           [.requestFile 7 { observer := obsName, path := ascii "a.txt", hash := ascii "ab" }])
    ∧ (addChunk emptyTracker msgNoSize.observer msgNoSize.path 0 [1, 2] true).2
        = .error (ascii "No transfer in progress for " ++ msgNoSize.observer
                  ++ ascii "/" ++ msgNoSize.path) :=
  ⟨by decide, rfl, by decide, by decide, rfl,
   (claim_C10 cfgsSecret fsAbsent emptyTracker 7 msgNoSize cfgWithSecret (ascii "ab")
      (by decide) rfl (by decide) (by decide) rfl).1,
   (claim_C10 cfgsSecret fsAbsent emptyTracker 7 msgNoSize cfgWithSecret (ascii "ab")
      (by decide) rfl (by decide) (by decide) rfl).2 0 [1, 2] true⟩

/-- Claim C7: on a chunk response whose `is_last_chunk` flag is false and
whose `add_chunk` succeeds without completing (a transfer is in progress
for the key), the orchestrator emits exactly one `FileChunkRequest` back
to the same peer at offset equal to the received offset plus the received
data length; and on a response whose `is_last_chunk` flag is true no
chunk request is emitted at all. -/
theorem claim_C7 (t : Tracker) (peer : Nat) (resp : FileTransferResponse)
    (s : TransferState) :
    (resp.is_last_chunk = false →
      alookup (resp.observer, resp.path) t = some s →
      handleFileTransferResponse t peer resp
        = (ainsert (resp.observer, resp.path)
             { s with chunks := ainsert resp.offset resp.data s.chunks } t,
           [.requestFileChunk peer
              { observer := resp.observer, path := resp.path,
                offset := resp.offset + resp.data.length, hash := resp.hash }]))
    ∧ (resp.is_last_chunk = true →
        (handleFileTransferResponse t peer resp).2 = []) := by
  constructor
  · intro hlast hs
    unfold handleFileTransferResponse addChunk
    simp [hs, hlast]
  · intro hlast
    unfold handleFileTransferResponse
    simp only [hlast, Bool.not_true]
    split <;> simp

/-- Claim C7 witness: the theorem applied to a concrete two-byte non-last
chunk for a tracked transfer — exactly one follow-up request at offset 2
is emitted — and to the same response flagged last — no request. -/
theorem claim_C7_witness :
    respC7.is_last_chunk = false
    ∧ alookup (respC7.observer, respC7.path) trackerC7
        = some { observer := obsName, path := ascii "a.txt", total_size := 5,
                 expected_hash := ascii "h", chunks := [], base_path := ascii "/base" }
    ∧ (handleFileTransferResponse trackerC7 9 respC7).2
        = [.requestFileChunk 9
             { observer := obsName, path := ascii "a.txt", offset := 2, hash := ascii "h" }]
    ∧ ({ respC7 with is_last_chunk := true } : FileTransferResponse).is_last_chunk = true
    ∧ (handleFileTransferResponse trackerC7 9 { respC7 with is_last_chunk := true }).2 = [] :=
  ⟨rfl, by decide,
   by
     rw [(claim_C7 trackerC7 9 respC7
           { observer := obsName, path := ascii "a.txt", total_size := 5,
             expected_hash := ascii "h", chunks := [], base_path := ascii "/base" }).1
         rfl (by decide)]
     rfl,
   rfl,
   (claim_C7 trackerC7 9 { respC7 with is_last_chunk := true }
      { observer := obsName, path := ascii "a.txt", total_size := 5,
        expected_hash := ascii "h", chunks := [], base_path := ascii "/base" }).2 rfl⟩

/-- Claim C3 counterexample: a `FileChunkRequest` referring to a local
file strictly larger than `MAX_FILE_SIZE` is *not* rejected — the
chunk-serving path performs no size check and sends a response. -/
theorem claim_C3_counterexample :
    fsOversize.sizeOf (toAbsolutePath chunkReqBig.path cfgWithSecret.path)
      = MAX_FILE_SIZE + 1
    ∧ handleFileChunkRequest cfgsSecret fsOversize 7 chunkReqBig
        = [.sendResponse
             { observer := obsName, path := ascii "big.bin", data := [7, 7, 7],
               offset := 0, total_size := MAX_FILE_SIZE + 1, hash := ascii "h",
               is_last_chunk := false }] := by
  exact ⟨rfl, by decide⟩

/-- Claim C3 amended: an initial `FileTransferRequest` referring to a
local file strictly larger than `MAX_FILE_SIZE` is rejected by the
first-chunk generator and the sender sends no response; subsequent
`FileChunkRequest`s, however, are served without any size check. -/
theorem claim_C3_amended (cfgs : ObserverConfigs) (fs : FsModel) (peer : Nat)
    (req : FileTransferRequest) (cfg : ObserverConfig)
    (h1 : alookup req.observer cfgs = some cfg)
    (h2 : fs.sizeOf (toAbsolutePath req.path cfg.path) > MAX_FILE_SIZE) :
    handleFileTransferRequest cfgs fs peer req = [] := by
  unfold handleFileTransferRequest
  rcases hex : fs.exists? (toAbsolutePath req.path cfg.path)
    && fs.isFile (toAbsolutePath req.path cfg.path)
  · simp [h1, hex]
  · simp [h1, hex, generateFirstChunk, h2]

/-- Claim C3 witness: the amended theorem applied to the concrete
oversize file — the initial request is dropped with no response. -/
theorem claim_C3_witness :
    alookup transferReqBig.observer cfgsSecret = some cfgWithSecret
    ∧ fsOversize.sizeOf (toAbsolutePath transferReqBig.path cfgWithSecret.path) > MAX_FILE_SIZE
    ∧ handleFileTransferRequest cfgsSecret fsOversize 7 transferReqBig = [] :=
  ⟨by decide, by decide,
   claim_C3_amended cfgsSecret fsOversize 7 transferReqBig cfgWithSecret
     (by decide) (by decide)⟩

/-- Lookup after inserting the same key finds the inserted value. -/
theorem alookup_ainsert_self {κ α : Type} [DecidableEq κ] (k : κ) (v : α)
    (m : List (κ × α)) : alookup k (ainsert k v m) = some v := by
  induction m with
  | nil => simp [ainsert, alookup]
  | cons q rest ih =>
      by_cases h : k = q.1
      · simp [ainsert, alookup, h]
      · simp [ainsert, alookup, h, ih]

/-- Lookup after erasing the same key finds nothing. -/
theorem alookup_aerase_self {κ α : Type} [DecidableEq κ] (k : κ)
    (m : List (κ × α)) : alookup k (aerase k m) = none := by
  induction m with
  | nil => rfl
  | cons q rest ih =>
      by_cases h : q.1 = k
      · simpa [aerase, alookup, h] using ih
      · simpa [aerase, alookup, h, Ne.symm h] using ih

/-- Inserting an absent key appends the binding at the end. -/
theorem ainsert_append_of_not_mem {κ α : Type} [DecidableEq κ] (k : κ) (v : α)
    (m : List (κ × α)) (h : ∀ p ∈ m, p.1 ≠ k) : ainsert k v m = m ++ [(k, v)] := by
  induction m with
  | nil => rfl
  | cons q rest ih =>
      have hq : q.1 ≠ k := h q (by simp)
      simp only [ainsert, List.cons_append]
      rw [ih (fun p hp => h p (by simp [hp])), if_neg (fun he => hq he.symm)]

/-- Inserting below every element of a sorted list conses it in front. -/
theorem insertSorted_of_forall_lt (x : Nat) (l : List Nat)
    (h : ∀ y ∈ l, x < y) : insertSorted x l = x :: l := by
  cases l with
  | nil => rfl
  | cons y ys => simp [insertSorted, Nat.le_of_lt (h y (by simp))]

/-- Sorting a strictly ascending list returns it unchanged. -/
theorem sortNat_of_sorted (l : List Nat) (h : List.Pairwise (· < ·) l) :
    sortNat l = l := by
  induction l with
  | nil => rfl
  | cons x xs ih =>
      have hx : ∀ y ∈ xs, x < y := fun y hy => (List.pairwise_cons.mp h).1 y hy
      have : sortNat (x :: xs) = insertSorted x (sortNat xs) := rfl
      rw [this, ih (List.pairwise_cons.mp h).2, insertSorted_of_forall_lt x xs hx]

/-- Assembly of a chunk map whose keys are strictly ascending concatenates
the stored chunk bytes in storage order. -/
theorem assembledContent_ascending (m : List (Nat × RStr))
    (h : List.Pairwise (· < ·) (m.map Prod.fst)) :
    assembledContent m = (m.map Prod.snd).flatten := by
  unfold assembledContent
  rw [sortNat_of_sorted _ h]
  congr 1
  induction m with
  | nil => rfl
  | cons q rest ih =>
      simp only [List.map_cons, List.pairwise_cons] at h ⊢
      have hhead : alookup q.1 (q :: rest) = some q.2 := by simp [alookup]
      have htail : (rest.map Prod.fst).map (fun o => (alookup o (q :: rest)).getD [])
          = (rest.map Prod.fst).map (fun o => (alookup o rest).getD []) := by
        apply List.map_congr_left
        intro o ho
        have hne : o ≠ q.1 := by
          have := h.1 o ho
          omega
        simp [alookup, hne]
      rw [hhead, htail, ih h.2]
      simp

/-- Taking as many elements as a take already produced takes the same. -/
theorem take_len_take {α : Type} (n : Nat) (l : List α) :
    l.take ((l.take n).length) = l.take n := by
  rw [List.length_take]
  rcases Nat.le_total n l.length with h | h
  · rw [Nat.min_eq_left h]
  · rw [Nat.min_eq_right h, List.take_length, List.take_of_length_le h]

/-- Feeding no chunks leaves the tracker alone with no completion. -/
theorem feedChunks_nil (t : Tracker) : feedChunks t [] = (t, .ok none) := rfl

/-- Feeding a single chunk is one `add_chunk` call. -/
theorem feedChunks_single (t : Tracker) (c : FileTransferResponse) :
    feedChunks t [c] = addChunk t c.observer c.path c.offset c.data c.is_last_chunk := rfl

/-- Feeding a chunk followed by more continues from the updated tracker. -/
theorem feedChunks_cons (t : Tracker) (c : FileTransferResponse)
    (cs : List FileTransferResponse) (hcs : cs ≠ []) :
    feedChunks t (c :: cs)
      = feedChunks (addChunk t c.observer c.path c.offset c.data c.is_last_chunk).1 cs := by
  cases cs with
  | nil => exact absurd rfl hcs
  | cons c' cs' => rfl

/-- Claim C5: for every tracked transfer, completing (via a last-flagged
`add_chunk`) discards the transfer state in every outcome, assembles the
buffered chunks in ascending offset order, fails with the size-mismatch
error when the assembled length differs from `total_size`, fails with the
hash-mismatch error when the assembled SHA-256 differs from
`expected_hash` (in both failure cases the result carries no written
file, so nothing is written at the destination), and only otherwise
reports the written path with the assembled bytes. -/
theorem claim_C5 (t : Tracker) (obs p : RStr) (off : Nat) (data : RStr)
    (s : TransferState) (h : alookup (obs, p) t = some s) :
    alookup (obs, p) (addChunk t obs p off data true).1 = none
    ∧ ((assembledContent (ainsert off data s.chunks)).length ≠ s.total_size →
        (addChunk t obs p off data true).2 = .error (ascii "File size mismatch"))
    ∧ ((assembledContent (ainsert off data s.chunks)).length = s.total_size →
        sha256hex (assembledContent (ainsert off data s.chunks)) ≠ s.expected_hash →
        (addChunk t obs p off data true).2 = .error (ascii "File hash mismatch"))
    ∧ ((assembledContent (ainsert off data s.chunks)).length = s.total_size →
        sha256hex (assembledContent (ainsert off data s.chunks)) = s.expected_hash →
        (addChunk t obs p off data true).2
          = .ok (some (toAbsolutePath s.path s.base_path,
                       assembledContent (ainsert off data s.chunks)))) := by
  have hstep : addChunk t obs p off data true
      = completeTransfer
          (ainsert (obs, p) { s with chunks := ainsert off data s.chunks } t) (obs, p) := by
    unfold addChunk
    simp [h]
  have hlook := alookup_ainsert_self (obs, p)
    { s with chunks := ainsert off data s.chunks } t
  rw [hstep]
  simp only [completeTransfer, hlook]
  refine ⟨?_, fun hc => ?_, fun hc1 hc2 => ?_, fun hc1 hc2 => ?_⟩
  · split_ifs <;> exact alookup_aerase_self (obs, p) _
  · rw [if_pos hc]
  · rw [if_neg (fun hne => hne hc1), if_pos hc2]
  · rw [if_neg (fun hne => hne hc1), if_neg (fun hne => hne hc2)]

/-- Claim C5 witness: the theorem applied to a concrete tracked transfer
of declared size 5 completed with a single 2-byte chunk — the completion
fails with the size-mismatch error and the transfer state is removed. -/
theorem claim_C5_witness :
    alookup (obsName, ascii "a.txt") trackerC7
      = some { observer := obsName, path := ascii "a.txt", total_size := 5,
               expected_hash := ascii "h", chunks := [], base_path := ascii "/base" }
    ∧ (assembledContent (ainsert 0 [1, 2] ([] : List (Nat × RStr)))).length ≠ 5
    ∧ (addChunk trackerC7 obsName (ascii "a.txt") 0 [1, 2] true).2
        = .error (ascii "File size mismatch")
    ∧ alookup (obsName, ascii "a.txt")
        (addChunk trackerC7 obsName (ascii "a.txt") 0 [1, 2] true).1 = none :=
  ⟨by decide, by decide,
   (claim_C5 trackerC7 obsName (ascii "a.txt") 0 [1, 2]
      { observer := obsName, path := ascii "a.txt", total_size := 5,
        expected_hash := ascii "h", chunks := [], base_path := ascii "/base" }
      (by decide)).2.1 (by decide),
   (claim_C5 trackerC7 obsName (ascii "a.txt") 0 [1, 2]
      { observer := obsName, path := ascii "a.txt", total_size := 5,
        expected_hash := ascii "h", chunks := [], base_path := ascii "/base" }
      (by decide)).1⟩

/-- `add_chunk` on a tracked key with a non-last chunk stores the chunk
and reports no completion. -/
theorem addChunk_found (t : Tracker) (obs p : RStr) (off : Nat) (data : RStr)
    (s : TransferState) (h : alookup (obs, p) t = some s) :
    addChunk t obs p off data false
      = (ainsert (obs, p) { s with chunks := ainsert off data s.chunks } t, .ok none) := by
  unfold addChunk
  simp [h]

/-- `add_chunk` on a tracked key with a last-flagged chunk stores the
chunk and completes the transfer. -/
theorem addChunk_found_last (t : Tracker) (obs p : RStr) (off : Nat) (data : RStr)
    (s : TransferState) (h : alookup (obs, p) t = some s) :
    addChunk t obs p off data true
      = completeTransfer
          (ainsert (obs, p) { s with chunks := ainsert off data s.chunks } t) (obs, p) := by
  unfold addChunk
  simp [h]

/-- `complete_transfer` on a tracked key removes the state and checks the
assembled bytes: size first, then hash, then reports the written path
with the assembled bytes. -/
theorem completeTransfer_found (t : Tracker) (key : RStr × RStr) (s : TransferState)
    (h : alookup key t = some s) :
    completeTransfer t key
      = (aerase key t,
         if (assembledContent s.chunks).length ≠ s.total_size then
           .error (ascii "File size mismatch")
         else if sha256hex (assembledContent s.chunks) ≠ s.expected_hash then
           .error (ascii "File hash mismatch")
         else .ok (some (toAbsolutePath s.path s.base_path, assembledContent s.chunks))) := by
  unfold completeTransfer
  simp only [h]
  split_ifs <;> rfl

/-- Feeding the generator's chunk tail from any mid-transfer position into
a tracker holding the matching state assembles exactly the file bytes:
the generalized invariant behind the assembly round-trip.  `pre` is the
chunk map built so far, covering `B.take offset` with strictly ascending
offsets below `offset`. -/
theorem feed_genChunks (obs p base B : RStr) :
    ∀ (fuel offset : Nat) (t : Tracker) (pre : List (Nat × RStr)),
    B.length - offset ≤ fuel →
    offset < B.length →
    alookup (obs, p) t = some
      { observer := obs, path := p, total_size := B.length,
        expected_hash := sha256hex B, chunks := pre, base_path := base } →
    (pre.map Prod.snd).flatten = B.take offset →
    List.Pairwise (· < ·) (pre.map Prod.fst) →
    (∀ k ∈ pre.map Prod.fst, k < offset) →
    (feedChunks t (genChunksAux obs p (sha256hex B) B offset)).2
      = .ok (some (toAbsolutePath p base, B)) := by
  intro fuel
  induction fuel with
  | zero =>
      intro offset t pre hfuel hoff _ _ _ _
      omega
  | succ n ih =>
      intro offset t pre hfuel hoff hlook hconcat hasc hlt
      have hcs : 0 < CHUNK_SIZE := by decide
      have hdlen : ((B.drop offset).take CHUNK_SIZE).length
          = min CHUNK_SIZE (B.length - offset) := by
        simp [List.length_take, List.length_drop]
      have hdpos : 0 < ((B.drop offset).take CHUNK_SIZE).length := by
        rw [hdlen]; omega
      have hle : offset + ((B.drop offset).take CHUNK_SIZE).length ≤ B.length := by
        rw [hdlen]; omega
      have hfresh : ∀ q ∈ pre, q.1 ≠ offset := by
        intro q hq
        have := hlt q.1 (List.mem_map_of_mem Prod.fst hq)
        omega
      have hins : ainsert offset ((B.drop offset).take CHUNK_SIZE) pre
          = pre ++ [(offset, (B.drop offset).take CHUNK_SIZE)] :=
        ainsert_append_of_not_mem _ _ pre hfresh
      have htake : (B.drop offset).take ((B.drop offset).take CHUNK_SIZE).length
          = (B.drop offset).take CHUNK_SIZE := take_len_take CHUNK_SIZE (B.drop offset)
      have hconcat' : ((pre ++ [(offset, (B.drop offset).take CHUNK_SIZE)]).map Prod.snd).flatten
          = B.take (offset + ((B.drop offset).take CHUNK_SIZE).length) := by
        rw [List.map_append, List.flatten_append, hconcat, List.take_add, htake]
        simp
      have hasc' : List.Pairwise (· < ·)
          ((pre ++ [(offset, (B.drop offset).take CHUNK_SIZE)]).map Prod.fst) := by
        rw [List.map_append, List.pairwise_append]
        refine ⟨hasc, List.pairwise_singleton _ _, ?_⟩
        intro a ha b hb
        simp only [List.map_cons, List.map_nil, List.mem_singleton] at hb
        subst hb
        exact hlt a ha
      rw [genChunksAux.eq_def, dif_pos hoff]
      by_cases hlast : offset + ((B.drop offset).take CHUNK_SIZE).length ≥ B.length
      · have hofffin : offset + ((B.drop offset).take CHUNK_SIZE).length = B.length := by omega
        have htail : genChunksAux obs p (sha256hex B) B
            (offset + ((B.drop offset).take CHUNK_SIZE).length) = [] := by
          rw [genChunksAux.eq_def, dif_neg (by omega)]
        rw [decide_eq_true hlast, htail, feedChunks_single]
        rw [addChunk_found_last t obs p offset _ _ hlook]
        rw [completeTransfer_found _ _ _ (alookup_ainsert_self _ _ _)]
        dsimp only
        have hcont : assembledContent
            (ainsert offset ((B.drop offset).take CHUNK_SIZE) pre) = B := by
          rw [hins, assembledContent_ascending _ hasc', hconcat', hofffin, List.take_length]
        rw [hcont, if_neg (fun hne => hne rfl), if_neg (fun hne => hne rfl)]
      · have hlt2 : offset + ((B.drop offset).take CHUNK_SIZE).length < B.length := by omega
        have htail_ne : genChunksAux obs p (sha256hex B) B
            (offset + ((B.drop offset).take CHUNK_SIZE).length) ≠ [] := by
          rw [genChunksAux.eq_def, dif_pos hlt2]
          simp
        rw [decide_eq_false (by omega), feedChunks_cons _ _ _ htail_ne]
        rw [addChunk_found t obs p offset _ _ hlook]
        refine ih _ _ _ (by omega) hlt2 ?_ hconcat' hasc' ?_
        · rw [alookup_ainsert_self]
          dsimp only
          rw [hins]
        · intro k hk
          rw [List.map_append] at hk
          rcases List.mem_append.mp hk with hk | hk
          · have := hlt k hk; omega
          · simp only [List.map_cons, List.map_nil, List.mem_singleton] at hk
            omega

/-- Claim C4 counterexample: for the empty byte string, the sender-side
chunk generator produces an empty chunk sequence, so feeding it into a
tracker started with total size 0 and the empty string's hash never
triggers a completion — the round trip is left with no completion and no
written file instead of a successful completion writing the empty
content. -/
theorem claim_C4_counterexample :
    generateFileChunks obsName (ascii "a.txt") [] (sha256hex []) = .ok []
    ∧ (feedChunks (startTransfer emptyTracker obsName (ascii "a.txt") 0 (sha256hex [])
         (ascii "/base")) []).2 = .ok none
    ∧ (Except.ok none : Except RStr (Option (RStr × RStr)))
        ≠ .ok (some (toAbsolutePath (ascii "a.txt") (ascii "/base"), ([] : RStr))) := by
  refine ⟨?_, rfl, by simp⟩
  have h0 : genChunksAux obsName (ascii "a.txt") (sha256hex []) [] 0 = [] := by
    rw [genChunksAux.eq_def, dif_neg (by simp)]
  unfold generateFileChunks
  rw [if_neg (by decide), h0]

/-- Claim C4 amended: for every non-empty byte string `B` with
`|B| ≤ MAX_FILE_SIZE`, the sender-side chunk generator succeeds, and
feeding its chunk sequence into a tracker on which `start_transfer` was
called with total size `|B|` and expected hash `SHA-256(B)` ends in a
successful completion whose written file content equals `B`
byte-for-byte.  (The empty byte string produces no chunks and never
completes.) -/
theorem claim_C4_amended (obs p base B : RStr)
    (h1 : 0 < B.length) (h2 : B.length ≤ MAX_FILE_SIZE) :
    generateFileChunks obs p B (sha256hex B) = .ok (genChunksAux obs p (sha256hex B) B 0)
    ∧ (feedChunks (startTransfer emptyTracker obs p B.length (sha256hex B) base)
         (genChunksAux obs p (sha256hex B) B 0)).2
      = .ok (some (toAbsolutePath p base, B)) := by
  constructor
  · unfold generateFileChunks
    rw [if_neg (by omega)]
  · refine feed_genChunks obs p base B B.length 0 _ [] (by omega) h1 ?_ (by simp) (by simp)
      (by simp)
    simp [startTransfer, ainsert, alookup]

/-- Claim C4 witness: the amended round trip applied to the concrete
two-byte content `"hi"`. -/
theorem claim_C4_witness :
    0 < ([104, 105] : RStr).length
    ∧ ([104, 105] : RStr).length ≤ MAX_FILE_SIZE
    ∧ generateFileChunks obsName (ascii "a.txt") [104, 105] (sha256hex [104, 105])
        = .ok (genChunksAux obsName (ascii "a.txt") (sha256hex [104, 105]) [104, 105] 0)
    ∧ (feedChunks (startTransfer emptyTracker obsName (ascii "a.txt") 2
          (sha256hex [104, 105]) (ascii "/base"))
         (genChunksAux obsName (ascii "a.txt") (sha256hex [104, 105]) [104, 105] 0)).2
      = .ok (some (toAbsolutePath (ascii "a.txt") (ascii "/base"), [104, 105])) :=
  ⟨by decide, by decide,
   (claim_C4_amended obsName (ascii "a.txt") (ascii "/base") [104, 105]
      (by decide) (by decide)).1,
   (claim_C4_amended obsName (ascii "a.txt") (ascii "/base") [104, 105]
      (by decide) (by decide)).2⟩
